import Mathlib

/-!
Shallow embedding of the Feather block-tick and state-transition engine
(src/libcraft/blocks/src: block_ticking.rs, block_transitions.rs,
tick_executor.rs, chunk_integration.rs, lib.rs), with theorems checking the
specified properties against the translated code.

Modelling conventions:
* `Instant` is a monotonic clock modelled as `Nat`; every Rust call site of
  `Instant::now()` becomes an explicit `now : Nat` parameter, and `Duration`
  delays become `Nat` offsets added to `now`.
* `HashMap`/`AHashMap` become association lists whose insert replaces the
  existing entry for the key and whose remove deletes every entry for the key.
* `BinaryHeap` becomes a plain list of elements; `push` appends and `pop`
  extracts a maximal element under the translated `Ord` (the earliest such
  element in the list, which fixes the tie order Rust leaves unspecified among
  `Eq`-equal elements; no settled claim depends on that tie order).
* The random sources (`thread_rng`, `gen_range`) become explicit oracle
  functions: `rng : Nat → Nat` gives the raw draw of iteration `i`, and
  `gen_range(0..len)` is the draw reduced `% len`, which realises exactly the
  contract that the result lies in `[0, len)`.
* Closures `block_getter` / `block_setter` become a pure oracle
  `Getter : Pos → Option (BlockKind × BlockProperties)` and an effect trace:
  functions return the ordered list of `block_setter` calls (and reached
  behavior-dispatch points) instead of performing them.
-/

namespace Feather

/-- Block position (i32, i32, i32); coordinate arithmetic in the embedded code
stays far from the i32 boundaries, so coordinates are modelled as `Int`. -/
abbrev Pos := Int × Int × Int

/-- Modelled from the spec: `BlockKind` lives in block.rs which is not part of
the excerpt; the spec describes it as an enumerated tag from a finite closed
set compared by equality. We enumerate the kinds that the in-scope code
(lib.rs, block_transitions.rs, tick_executor.rs) mentions. -/
inductive BlockKind where
  | Stone
  | GrassBlock
  | Dirt
  | Copper
  | ExposedCopper
  | WeatheredCopper
  | OxidizedCopper
  | CutCopper
  | ExposedCutCopper
  | WeatheredCutCopper
  | OxidizedCutCopper
  | CutCopperStairs
  | ExposedCutCopperStairs
  | WeatheredCutCopperStairs
  | OxidizedCutCopperStairs
  | CutCopperSlab
  | ExposedCutCopperSlab
  | WeatheredCutCopperSlab
  | OxidizedCutCopperSlab
  | BuddingAmethyst
  | PointedDripstone
  | AmethystBlock
  | AmethystCluster
  | TintedGlass
  | LightningRod
  | Candle
  | RedstoneWire
deriving DecidableEq, Repr

/-- lib.rs `BlockKind::receives_random_ticks`: which kinds can receive random
ticks (match arms translated one-to-one, catch-all `_ => false`). -/
def BlockKind.receives_random_ticks : BlockKind → Bool
  | .Copper | .ExposedCopper | .WeatheredCopper => true
  | .CutCopper | .ExposedCutCopper | .WeatheredCutCopper => true
  | .CutCopperStairs | .ExposedCutCopperStairs | .WeatheredCutCopperStairs => true
  | .CutCopperSlab | .ExposedCutCopperSlab | .WeatheredCutCopperSlab => true
  | .BuddingAmethyst => true
  | .PointedDripstone => true
  | _ => false

/-- block_properties.rs `BlockProperties`: a map from property name to value
(`HashMap<String, String>` as an association list) plus the owning kind. -/
structure BlockProperties where
  properties : List (String × String)
  kind : BlockKind

/-- block_properties.rs `BlockProperties::new`. -/
def BlockProperties.new (kind : BlockKind) : BlockProperties :=
  ⟨[], kind⟩

/-- block_properties.rs `BlockProperties::get`. -/
def BlockProperties.get (p : BlockProperties) (name : String) : Option String :=
  (p.properties.find? (fun e => decide (e.1 = name))).map Prod.snd

/-- block_properties.rs `BlockProperties::set` (HashMap insert replaces). -/
def BlockProperties.set (p : BlockProperties) (name value : String) : BlockProperties :=
  ⟨(name, value) :: p.properties.filter (fun e => !decide (e.1 = name)), p.kind⟩

/-- block_ticking.rs `TickType`. -/
inductive TickType where
  | Random
  | Scheduled
deriving DecidableEq, Repr

/-- block_ticking.rs `BlockTick`: a scheduled tick for a block. The source
comment on `priority` reads "lower values = higher priority". -/
structure BlockTick where
  position : Pos
  kind : BlockKind
  scheduled_time : Nat
  tick_type : TickType
  priority : Int
deriving DecidableEq, Repr

/-- block_ticking.rs `impl Ord for BlockTick`:
`Reverse(a.scheduled_time).cmp(&Reverse(b.scheduled_time)).then_with(|| a.priority.cmp(&b.priority))`.
`Reverse` flips the comparison of the times; the priority tie-break is NOT
reversed, so among equal times the greater priority value is the greater
element (and pops first from the max-heap). -/
def tickCmp (a b : BlockTick) : Ordering :=
  (compare b.scheduled_time a.scheduled_time).then (compare a.priority b.priority)

/-- Extract a maximal element under `tickCmp` from `t :: ts`, returning it and
the remaining elements; prefers the earliest-index maximal element. This is
the model of `BinaryHeap::pop` (and, via the first component, of `peek`). -/
def heapPopAux (t : BlockTick) : List BlockTick → BlockTick × List BlockTick
  | [] => (t, [])
  | u :: us =>
      let p := heapPopAux u us
      if tickCmp p.1 t = .gt then (p.1, t :: p.2) else (t, u :: us)

/-- Model of `BinaryHeap::pop` on the heap contents. -/
def heapPop : List BlockTick → Option (BlockTick × List BlockTick)
  | [] => none
  | t :: ts => some (heapPopAux t ts)

/-- block_ticking.rs `BlockTickScheduler`: heap of pending ticks, the
position→tick map kept "to avoid duplicates", and the random tick speed. -/
structure BlockTickScheduler where
  pending_ticks : List BlockTick
  position_to_tick : List (Pos × BlockTick)
  random_tick_speed : Nat

/-- block_ticking.rs `BlockTickScheduler::new`. -/
def BlockTickScheduler.new (random_tick_speed : Nat) : BlockTickScheduler :=
  ⟨[], [], random_tick_speed⟩

/-- HashMap remove on the association list. -/
def mapRemove (m : List (Pos × BlockTick)) (k : Pos) : List (Pos × BlockTick) :=
  m.filter (fun e => !decide (e.1 = k))

/-- block_ticking.rs `BlockTickScheduler::schedule_tick`. The source first
removes the map entry for the position; the follow-up heap clean-up
(`self.pending_ticks.iter().position(..).map(|i| ..nth(i))`, lines 94-96)
computes an index and discards it without mutating the heap, so the stale
heap entry stays — translated faithfully as: no heap removal. -/
def BlockTickScheduler.schedule_tick (s : BlockTickScheduler) (now : Nat)
    (position : Pos) (kind : BlockKind) (delay : Nat)
    (tick_type : TickType) (priority : Int) : BlockTickScheduler :=
  let scheduled_time := now + delay
  let tick : BlockTick := ⟨position, kind, scheduled_time, tick_type, priority⟩
  let m := mapRemove s.position_to_tick position
  { s with
    position_to_tick := (position, tick) :: m
    pending_ticks := s.pending_ticks ++ [tick] }

/-- Loop body of block_ticking.rs `BlockTickScheduler::process_ticks`:
`while let Some(tick) = peek { if tick.scheduled_time > now { break }; pop;
map.remove(position); handler(..) }`. Fuel is the heap size: each iteration
pops one element, so `pending_ticks.length` steps always suffice. Returns the
ordered handler calls and the final scheduler state. -/
def processTicksLoop (now : Nat) :
    Nat → BlockTickScheduler → List (Pos × BlockKind × TickType) × BlockTickScheduler
  | 0, s => ([], s)
  | fuel + 1, s =>
    match heapPop s.pending_ticks with
    | none => ([], s)
    | some (t, rest) =>
      if now < t.scheduled_time then ([], s)
      else
        let s1 : BlockTickScheduler :=
          { s with pending_ticks := rest, position_to_tick := mapRemove s.position_to_tick t.position }
        let r := processTicksLoop now fuel s1
        ((t.position, t.kind, t.tick_type) :: r.1, r.2)

/-- block_ticking.rs `BlockTickScheduler::process_ticks` (the `now` parameter
is the `Instant::now()` read at entry). -/
def BlockTickScheduler.process_ticks (s : BlockTickScheduler) (now : Nat) :
    List (Pos × BlockKind × TickType) × BlockTickScheduler :=
  processTicksLoop now s.pending_ticks.length s

/-- block_ticking.rs `BlockTickScheduler::process_random_ticks`: loop
`random_tick_speed` times, return early if the slice is empty, otherwise pick
`index = gen_range(0..len)` and call the handler with `(pos, kind)` of
`blocks[index]`. Returns the ordered handler calls. -/
def BlockTickScheduler.process_random_ticks (s : BlockTickScheduler)
    (chunk_position : Int × Int) (blocks : List (BlockKind × Pos × BlockProperties))
    (rng : Nat → Nat) : List (Pos × BlockKind) :=
  match blocks with
  | [] => []
  | b :: bs =>
    (List.range s.random_tick_speed).map (fun i =>
      let index := rng i % (b :: bs).length
      let blk := (b :: bs).getD index b
      (blk.2.1, blk.1))

/-- block_ticking.rs `BlockTickScheduler::clear`. -/
def BlockTickScheduler.clear (s : BlockTickScheduler) : BlockTickScheduler :=
  { s with pending_ticks := [], position_to_tick := [] }

/-- block_ticking.rs `BlockTickScheduler::set_random_tick_speed`. -/
def BlockTickScheduler.set_random_tick_speed (s : BlockTickScheduler) (speed : Nat) :
    BlockTickScheduler :=
  { s with random_tick_speed := speed }

/-- block_transitions.rs `TransitionCondition`. The `RandomTick` payload is an
`f32` probability in the source; `check_condition` never reads it, so it is
carried here as a `Rat` to keep equality decidable. -/
inductive TransitionCondition where
  | ExposedToSky
  | Connected (kind : BlockKind)
  | RedstonePowered
  | InBiome (name : String)
  | RandomTick (probability : Rat)
  | Custom (func : BlockProperties → Bool)

/-- block_transitions.rs `BlockStateTransition` (`transition_time` is a
`Duration`, modelled in the same `Nat` units as delays). -/
structure BlockStateTransition where
  source_kind : BlockKind
  target_kind : BlockKind
  conditions : List TransitionCondition
  transition_time : Option Nat

/-- block_transitions.rs `BlockTransitionManager`. -/
structure BlockTransitionManager where
  transitions : List BlockStateTransition

/-- block_transitions.rs `BlockTransitionManager::new`. -/
def BlockTransitionManager.new : BlockTransitionManager :=
  ⟨[]⟩

/-- block_transitions.rs `BlockTransitionManager::register_transition`
(`Vec::push`, so registration order is list order). -/
def BlockTransitionManager.register_transition (m : BlockTransitionManager)
    (t : BlockStateTransition) : BlockTransitionManager :=
  ⟨m.transitions ++ [t]⟩

/-- block_transitions.rs `BlockTransitionManager::check_condition`. The world
conditions (`ExposedToSky`, `Connected`, `InBiome`) are "simplified for demo"
to `false` in the source, and `RandomTick(_)` is "Would be implemented with
the random tick system" and returns `false` unconditionally. -/
def BlockTransitionManager.check_condition (_m : BlockTransitionManager)
    (condition : TransitionCondition) (properties : BlockProperties) : Bool :=
  match condition with
  | .ExposedToSky => false
  | .Connected _ => false
  | .RedstonePowered => ((properties.get "powered").map (fun v => decide (v = "true"))).getD false
  | .InBiome _ => false
  | .RandomTick _ => false
  | .Custom func => func properties

/-- Loop of block_transitions.rs `BlockTransitionManager::check_transition`:
skip rules whose source differs, return the first rule whose conditions all
hold. -/
def checkTransitionLoop (m : BlockTransitionManager) (kind : BlockKind)
    (properties : BlockProperties) : List BlockStateTransition → Option BlockKind
  | [] => none
  | t :: ts =>
    if t.source_kind ≠ kind then checkTransitionLoop m kind properties ts
    else if t.conditions.all (fun c => m.check_condition c properties) then
      some t.target_kind
    else checkTransitionLoop m kind properties ts

/-- block_transitions.rs `BlockTransitionManager::check_transition`. -/
def BlockTransitionManager.check_transition (m : BlockTransitionManager)
    (kind : BlockKind) (properties : BlockProperties) : Option BlockKind :=
  checkTransitionLoop m kind properties m.transitions

/-- External world-read capability: tick_executor.rs / chunk_integration.rs
`block_getter` closures (`Fn(pos) -> Option<(BlockKind, BlockProperties)>`). -/
abbrev Getter := Pos → Option (BlockKind × BlockProperties)

/-- Observable effects of a tick pass: calls to the external `block_setter`
and reaches of the per-kind behavior `match` in tick_executor.rs (whose arms
are all no-op stubs in the source; the trace records that the dispatch point
was reached for the given kind and tick type). -/
inductive TickEffect where
  | setterCall (position : Pos) (kind : BlockKind)
  | behaviorDispatch (position : Pos) (kind : BlockKind) (tick_type : TickType)
deriving DecidableEq, Repr

/-- tick_executor.rs `BlockTickExecutor`. -/
structure BlockTickExecutor where
  scheduler : BlockTickScheduler
  transition_manager : BlockTransitionManager

/-- tick_executor.rs `BlockTickExecutor::new`. -/
def BlockTickExecutor.new (random_tick_speed : Nat)
    (transition_manager : BlockTransitionManager) : BlockTickExecutor :=
  ⟨BlockTickScheduler.new random_tick_speed, transition_manager⟩

/-- tick_executor.rs `BlockTickExecutor::schedule_tick`: pass-through to the
scheduler with `TickType::Scheduled`. -/
def BlockTickExecutor.schedule_tick (ex : BlockTickExecutor) (now : Nat)
    (position : Pos) (kind : BlockKind) (delay : Nat) (priority : Int) :
    BlockTickExecutor :=
  { ex with scheduler := ex.scheduler.schedule_tick now position kind delay .Scheduled priority }

/-- The closure passed to `scheduler.process_ticks` in tick_executor.rs
`BlockTickExecutor::process_ticks`, as a trace of its effects on one yielded
event: re-fetch the block, drop the event if the position is empty or the
current kind differs from the recorded kind, otherwise apply the transition
check (a `block_setter` call on a match) and reach the per-kind behavior
dispatch. -/
def tickHandlerTrace (tm : BlockTransitionManager) (block_getter : Getter)
    (e : Pos × BlockKind × TickType) : List TickEffect :=
  match block_getter e.1 with
  | none => []
  | some (current_kind, properties) =>
    if current_kind ≠ e.2.1 then []
    else
      (match tm.check_transition current_kind properties with
       | some target_kind => [.setterCall e.1 target_kind]
       | none => []) ++ [.behaviorDispatch e.1 current_kind e.2.2]

/-- tick_executor.rs `BlockTickExecutor::process_ticks`: drain the due events
from the scheduler and run the handler on each, in order. -/
def BlockTickExecutor.process_ticks (ex : BlockTickExecutor) (now : Nat)
    (block_getter : Getter) : List TickEffect × BlockTickExecutor :=
  let r := ex.scheduler.process_ticks now
  (r.1.flatMap (tickHandlerTrace ex.transition_manager block_getter),
   { ex with scheduler := r.2 })

/-- tick_executor.rs `BlockTickExecutor::process_random_ticks`: sample via the
scheduler, and for each sampled block re-read it and apply only the transition
check (the sampled kind itself is not consulted). -/
def BlockTickExecutor.process_random_ticks (ex : BlockTickExecutor)
    (chunk_position : Int × Int) (blocks : List (BlockKind × Pos × BlockProperties))
    (block_getter : Getter) (rng : Nat → Nat) : List TickEffect :=
  (ex.scheduler.process_random_ticks chunk_position blocks rng).flatMap (fun pk =>
    match block_getter pk.1 with
    | none => []
    | some (current_kind, properties) =>
      match ex.transition_manager.check_transition current_kind properties with
      | some target_kind => [.setterCall pk.1 target_kind]
      | none => [])

/-- chunk_integration.rs `ChunkPosition` (from the external `base` crate): the
(x, z) identity of a chunk. -/
abbrev ChunkPosition := Int × Int

/-- Modelled from the spec: `base::Chunk` is not part of the excerpt; the spec
calls it opaque loaded-chunk data supplied by the chunk-loading subsystem. The
integration code reads only `chunk.height()`, so the model keeps just that. -/
structure Chunk where
  height : Nat

/-- Modelled from the spec: `base::ValidBlockPosition::new` is not part of the
excerpt; per the spec a neighbor position may be "absent/out of range", so
construction succeeds exactly on positions accepted by an externally supplied
validity predicate. -/
def ValidBlockPosition.new (posValid : Pos → Bool) (p : Pos) : Option Pos :=
  if posValid p then some p else none

/-- chunk_integration.rs `BlockUpdate`: a pending deferred block update. -/
structure BlockUpdate where
  position : Pos
  kind : BlockKind
  delay : Nat
  priority : Int
deriving Repr

/-- chunk_integration.rs `BlockWorldIntegration`. `registered_chunks` is an
`AHashMap<ChunkPosition, bool>` modelled as an association list. -/
structure BlockWorldIntegration where
  tick_executor : BlockTickExecutor
  registered_chunks : List (ChunkPosition × Bool)
  pending_updates : List BlockUpdate
  random_tick_interval : Nat
  current_tick : Nat

/-- chunk_integration.rs `BlockWorldIntegration::new` (the random tick
interval is hardwired to 1 and no method of the struct ever writes it). -/
def BlockWorldIntegration.new (tick_executor : BlockTickExecutor) :
    BlockWorldIntegration :=
  ⟨tick_executor, [], [], 1, 0⟩

/-- chunk_integration.rs `BlockWorldIntegration::register_chunk`
(`AHashMap::insert`, replacing any existing entry for the key). -/
def BlockWorldIntegration.register_chunk (w : BlockWorldIntegration)
    (pos : ChunkPosition) : BlockWorldIntegration :=
  { w with registered_chunks :=
      (pos, true) :: w.registered_chunks.filter (fun e => !decide (e.1 = pos)) }

/-- chunk_integration.rs `BlockWorldIntegration::unregister_chunk`
(`AHashMap::remove`). -/
def BlockWorldIntegration.unregister_chunk (w : BlockWorldIntegration)
    (pos : ChunkPosition) : BlockWorldIntegration :=
  { w with registered_chunks :=
      w.registered_chunks.filter (fun e => !decide (e.1 = pos)) }

/-- Whether a chunk is currently in the registered map. -/
def BlockWorldIntegration.isRegistered (w : BlockWorldIntegration)
    (pos : ChunkPosition) : Bool :=
  (w.registered_chunks.find? (fun e => decide (e.1 = pos))).isSome

/-- chunk_integration.rs `BlockWorldIntegration::schedule_block_update`. -/
def BlockWorldIntegration.schedule_block_update (w : BlockWorldIntegration)
    (pos : Pos) (kind : BlockKind) (delay : Nat) (priority : Int) :
    BlockWorldIntegration :=
  { w with pending_updates := w.pending_updates ++ [⟨pos, kind, delay, priority⟩] }

/-- Lookup in the chunk table (`AHashMap<ChunkPosition, Chunk>::get`). -/
def chunkLookup (chunks : List (ChunkPosition × Chunk)) (pos : ChunkPosition) :
    Option Chunk :=
  (chunks.find? (fun e => decide (e.1 = pos))).map Prod.snd

/-- The block-collection scan inside chunk_integration.rs
`BlockWorldIntegration::process_random_ticks`: for every in-chunk coordinate
(y up to `chunk.height()`, z and x in 0..16), build the world position (the
source's `ValidBlockPosition::new(..).unwrap()` on in-chunk coordinates),
read it through `block_getter` and keep the blocks that receive random
ticks. -/
def ticking_blocks (block_getter : Getter) (pos : ChunkPosition) (chunk : Chunk) :
    List (BlockKind × Pos × BlockProperties) :=
  (List.range chunk.height).flatMap (fun y =>
    (List.range 16).flatMap (fun z =>
      (List.range 16).filterMap (fun x =>
        let block_pos : Pos := (pos.1 * 16 + (x : Int), (y : Int), pos.2 * 16 + (z : Int))
        match block_getter block_pos with
        | some (kind, properties) =>
          if kind.receives_random_ticks then some (kind, block_pos, properties) else none
        | none => none)))

/-- chunk_integration.rs `BlockWorldIntegration::process_random_ticks`: for
every registered chunk present in the supplied chunk table, collect its
ticking blocks and run the executor's random-tick pass on them. The per-chunk
`thread_rng` draws come from the oracle `rng`, indexed by chunk. -/
def BlockWorldIntegration.process_random_ticks (w : BlockWorldIntegration)
    (block_getter : Getter) (chunks : List (ChunkPosition × Chunk))
    (rng : ChunkPosition → Nat → Nat) : List TickEffect :=
  w.registered_chunks.flatMap (fun rc =>
    match chunkLookup chunks rc.1 with
    | none => []
    | some chunk =>
      w.tick_executor.process_random_ticks rc.1
        (ticking_blocks block_getter rc.1 chunk) block_getter (rng rc.1))

/-- chunk_integration.rs `BlockWorldIntegration::process_pending_updates`:
the `while i < len` loop with `remove(i)` on due entries. An entry whose
`delay` (as an absolute tick count) is ≤ `current_tick` is removed and, when
the block is still present with the recorded kind, promoted via
`tick_executor.schedule_tick` with `Duration::from_millis(0)`; otherwise it is
dropped. Entries not yet due stay, in order. -/
def process_pending_updates (current_tick : Nat) (now : Nat) (block_getter : Getter)
    (ex : BlockTickExecutor) :
    List BlockUpdate → BlockTickExecutor × List BlockUpdate
  | [] => (ex, [])
  | u :: rest =>
    if u.delay ≤ current_tick then
      let ex1 :=
        match block_getter u.position with
        | some (current_kind, _) =>
          if current_kind = u.kind then
            ex.schedule_tick now u.position u.kind 0 u.priority
          else ex
        | none => ex
      process_pending_updates current_tick now block_getter ex1 rest
    else
      let r := process_pending_updates current_tick now block_getter ex rest
      (r.1, u :: r.2)

/-- chunk_integration.rs `BlockWorldIntegration::update`: increment the tick
counter, process scheduled ticks, process random ticks when
`current_tick % random_tick_interval == 0`, then process pending updates
against the incremented counter. -/
def BlockWorldIntegration.update (w : BlockWorldIntegration) (block_getter : Getter)
    (chunks : List (ChunkPosition × Chunk)) (now : Nat)
    (rng : ChunkPosition → Nat → Nat) : List TickEffect × BlockWorldIntegration :=
  let w1 : BlockWorldIntegration := { w with current_tick := w.current_tick + 1 }
  let r1 := w1.tick_executor.process_ticks now block_getter
  let w2 : BlockWorldIntegration := { w1 with tick_executor := r1.2 }
  let trace2 :=
    if w2.current_tick % w2.random_tick_interval = 0 then
      w2.process_random_ticks block_getter chunks rng
    else []
  let r3 := process_pending_updates w2.current_tick now block_getter
    w2.tick_executor w2.pending_updates
  (r1.1 ++ trace2, { w2 with tick_executor := r3.1, pending_updates := r3.2 })

/-- The six axis-aligned neighbor candidates in chunk_integration.rs
`BlockWorldIntegration::propagate_block_update` (before validity filtering). -/
def neighbor_candidates (pos : Pos) : List Pos :=
  [(pos.1 + 1, pos.2.1, pos.2.2), (pos.1 - 1, pos.2.1, pos.2.2),
   (pos.1, pos.2.1 + 1, pos.2.2), (pos.1, pos.2.1 - 1, pos.2.2),
   (pos.1, pos.2.1, pos.2.2 + 1), (pos.1, pos.2.1, pos.2.2 - 1)]

/-- chunk_integration.rs `BlockWorldIntegration::propagate_block_update`: for
each of the six neighbor positions that constructs (`.iter().flatten()` drops
the invalid ones) and at which `block_getter` reports a block, enqueue a
pending update for that neighbor's current kind with delay 1 and priority 0. -/
def BlockWorldIntegration.propagate_block_update (w : BlockWorldIntegration)
    (posValid : Pos → Bool) (pos : Pos) (block_getter : Getter) :
    BlockWorldIntegration :=
  let neighbors := (neighbor_candidates pos).filterMap (ValidBlockPosition.new posValid)
  neighbors.foldl (fun acc neighbor_pos =>
    match block_getter neighbor_pos with
    | some (kind, _) => acc.schedule_block_update neighbor_pos kind 1 0
    | none => acc) w

/-- chunk_integration.rs `BlockWorldIntegration::on_block_changed`: propagate
to neighbors, then schedule an immediate tick for the new block when its kind
receives random ticks. -/
def BlockWorldIntegration.on_block_changed (w : BlockWorldIntegration)
    (posValid : Pos → Bool) (pos : Pos) (new_block : BlockKind)
    (block_getter : Getter) (now : Nat) : BlockWorldIntegration :=
  let w1 := w.propagate_block_update posValid pos block_getter
  if new_block.receives_random_ticks then
    { w1 with tick_executor := w1.tick_executor.schedule_tick now pos new_block 0 0 }
  else w1

/-! Concrete states exercising the scheduler on duplicate-position scheduling
and on priority ties. -/

/-- Scheduler after two `schedule_tick` calls at the same position (1,1,1)
with different kinds, both at clock 0 with delay 0. -/
def dupSched : BlockTickScheduler :=
  ((BlockTickScheduler.new 3).schedule_tick 0 (1, 1, 1) .Stone 0 .Scheduled 0).schedule_tick
    0 (1, 1, 1) .Dirt 0 .Scheduled 0

/-- Scheduler holding two ticks with equal due time and distinct priorities
0 and 5 at distinct positions. -/
def tieSched : BlockTickScheduler :=
  ((BlockTickScheduler.new 3).schedule_tick 0 (0, 0, 0) .Stone 0 .Scheduled 0).schedule_tick
    0 (1, 0, 0) .Dirt 0 .Scheduled 5

/-- C1: scheduling twice at position (1,1,1) must yield at most one fire, but
the source's heap clean-up on replacement is a no-op, so `process_ticks` at a
later time fires the position twice — once with the stale kind `Stone` and
once with `Dirt` — violating the dedup invariant. -/
theorem claim_C1_duplicate_schedule_fires_twice :
    (dupSched.process_ticks 10).1.map Prod.fst = [(1, 1, 1), (1, 1, 1)] ∧
      (dupSched.process_ticks 10).1.length = 2 ∧
      (dupSched.process_ticks 10).1.map (fun e => e.2.1) = [.Stone, .Dirt] := by
  decide

/-- C3: among due events with equal due time, the claim (and the source's own
field comment "lower values = higher priority") requires the lower priority
value to fire first, but the translated `Ord` makes the larger priority value
the heap maximum, so the priority-5 event fires before the priority-0 one. -/
theorem claim_C3_equal_time_higher_priority_value_first :
    (tieSched.process_ticks 10).1 =
      [((1, 0, 0), .Dirt, .Scheduled), ((0, 0, 0), .Stone, .Scheduled)] := by
  decide

/-! The copper scenario: a Copper → ExposedCopper rule guarded solely by
`RandomTick(1.0)`. -/

/-- Properties of the copper block at (0,64,0). -/
def copperProps : BlockProperties := BlockProperties.new .Copper

/-- Transition manager with the single rule Copper → ExposedCopper whose sole
condition is `RandomTick(1.0)`. -/
def copperManager : BlockTransitionManager :=
  BlockTransitionManager.new.register_transition
    ⟨.Copper, .ExposedCopper, [.RandomTick 1], some 12000⟩

/-- Executor with random-tick budget 1 over the copper rule table. -/
def copperExec : BlockTickExecutor := BlockTickExecutor.new 1 copperManager

/-- World read oracle: a Copper block at (0,64,0), nothing elsewhere. -/
def copperGetter : Getter := fun p =>
  if p = ((0 : Int), (64 : Int), (0 : Int)) then some (.Copper, copperProps) else none

/-- C2: with the Copper block at (0,64,0) as sole candidate and budget 1, the
claim requires exactly one `block_setter` call with ExposedCopper, but the
source's `check_condition` returns `false` for every `RandomTick` condition
(unimplemented stub), so `check_transition` yields none and no setter call
happens at all. -/
theorem claim_C2_random_tick_condition_never_fires :
    copperManager.check_condition (.RandomTick 1) copperProps = false ∧
      copperExec.process_random_ticks (0, 0) [(.Copper, ((0 : Int), 64, 0), copperProps)]
        copperGetter (fun _ => 0) = [] := by
  decide

/-- The rule-matching predicate of `check_transition`: source kind equals the
queried kind and every condition evaluates true. -/
def ruleMatches (m : BlockTransitionManager) (kind : BlockKind)
    (properties : BlockProperties) (t : BlockStateTransition) : Bool :=
  decide (t.source_kind = kind) && t.conditions.all (fun c => m.check_condition c properties)

theorem checkTransitionLoop_eq_find (m : BlockTransitionManager) (kind : BlockKind)
    (properties : BlockProperties) :
    ∀ l : List BlockStateTransition,
      checkTransitionLoop m kind properties l =
        (l.find? (ruleMatches m kind properties)).map (fun t => t.target_kind) := by
  intro l
  induction l with
  | nil => rfl
  | cons t ts ih =>
    by_cases hsrc : t.source_kind = kind
    · by_cases hcond : t.conditions.all (fun c => m.check_condition c properties) = true
      · simp [checkTransitionLoop, hsrc, hcond, List.find?, ruleMatches]
      · simp [checkTransitionLoop, hsrc, hcond, List.find?, ruleMatches, ih]
    · simp [checkTransitionLoop, hsrc, List.find?, ruleMatches, ih]

/-- C5: `check_transition` scans the rules in registration order and returns
the target of the first rule whose source kind equals the queried kind and
whose conditions all hold, and `none` when no rule matches; being a pure
function of the table, kind and properties, repeated calls agree. -/
theorem claim_C5_check_transition_first_match (m : BlockTransitionManager)
    (kind : BlockKind) (properties : BlockProperties) :
    m.check_transition kind properties =
      (m.transitions.find? (ruleMatches m kind properties)).map (fun t => t.target_kind) :=
  checkTransitionLoop_eq_find m kind properties m.transitions

theorem getD_mem_or_eq {α : Type} : ∀ (l : List α) (n : Nat) (d : α),
    l.getD n d ∈ l ∨ l.getD n d = d := by
  intro l
  induction l with
  | nil => intro n d; right; cases n <;> rfl
  | cons a as ih =>
    intro n d
    cases n with
    | zero => left; simp
    | succ k =>
      rw [List.getD_cons_succ]
      rcases ih k d with h | h
      · left; exact List.mem_cons_of_mem a h
      · right; exact h

/-- C6: with a non-empty candidate list the sampler invokes the tick handler
exactly `random_tick_speed` (budget) times, each invocation on a candidate
drawn from the list; with an empty candidate list it invokes the handler zero
times. In both cases it returns (totality of the model). -/
theorem claim_C6_sampler_budget (s : BlockTickScheduler) (cp : Int × Int)
    (blocks : List (BlockKind × Pos × BlockProperties)) (rng : Nat → Nat) :
    (blocks = [] → s.process_random_ticks cp blocks rng = []) ∧
      (blocks ≠ [] →
        (s.process_random_ticks cp blocks rng).length = s.random_tick_speed ∧
          ∀ call ∈ s.process_random_ticks cp blocks rng,
            ∃ b ∈ blocks, call = (b.2.1, b.1)) := by
  constructor
  · intro h
    subst h
    rfl
  · intro h
    match blocks with
    | [] => exact absurd rfl h
    | b :: bs =>
      constructor
      · simp [BlockTickScheduler.process_random_ticks]
      · intro call hc
        simp only [BlockTickScheduler.process_random_ticks, List.mem_map,
          List.mem_range] at hc
        obtain ⟨i, _, hcall⟩ := hc
        rcases getD_mem_or_eq (b :: bs) (rng i % (b :: bs).length) b with hm | hm
        · exact ⟨_, hm, hcall.symm⟩
        · exact ⟨b, by simp, by rw [← hcall, hm]⟩

/-- A yielded event is stale when `block_getter` reports no block at its
position or a block of a different kind than the event recorded. -/
def staleAt (block_getter : Getter) (e : Pos × BlockKind × TickType) : Bool :=
  match block_getter e.1 with
  | none => true
  | some bp => decide (bp.1 ≠ e.2.1)

theorem tickHandlerTrace_stale (tm : BlockTransitionManager) (block_getter : Getter)
    (e : Pos × BlockKind × TickType) (h : staleAt block_getter e = true) :
    tickHandlerTrace tm block_getter e = [] := by
  unfold tickHandlerTrace
  unfold staleAt at h
  cases hg : block_getter e.1 with
  | none => rfl
  | some bp =>
    rw [hg] at h
    simp only [decide_eq_true_eq] at h
    cases bp with
    | mk ck props => simp [h]

theorem flatMap_filter_stale (tm : BlockTransitionManager) (block_getter : Getter) :
    ∀ l : List (Pos × BlockKind × TickType),
      l.flatMap (tickHandlerTrace tm block_getter) =
        (l.filter (fun e => !staleAt block_getter e)).flatMap
          (tickHandlerTrace tm block_getter) := by
  intro l
  induction l with
  | nil => rfl
  | cons e es ih =>
    by_cases hs : staleAt block_getter e = true
    · simp [List.flatMap_cons, List.filter_cons, hs,
        tickHandlerTrace_stale tm block_getter e hs, ih]
    · simp [List.flatMap_cons, List.filter_cons, Bool.not_eq_true _ ▸ hs,
        eq_false_of_ne_true hs, ih]

/-- C4: in the executor's `process_ticks`, every due event whose position now
holds no block or a block of a different kind than recorded is silently
discarded: the effect trace equals the trace of the non-stale events alone
(so a stale event produces no `block_setter` call and no behavior dispatch),
and a stale event's handler trace is empty. -/
theorem claim_C4_stale_events_discarded (ex : BlockTickExecutor) (now : Nat)
    (block_getter : Getter) :
    (ex.process_ticks now block_getter).1 =
        ((ex.scheduler.process_ticks now).1.filter (fun e => !staleAt block_getter e)).flatMap
          (tickHandlerTrace ex.transition_manager block_getter) ∧
      ∀ e, staleAt block_getter e = true →
        tickHandlerTrace ex.transition_manager block_getter e = [] :=
  ⟨flatMap_filter_stale ex.transition_manager block_getter _,
   fun e he => tickHandlerTrace_stale ex.transition_manager block_getter e he⟩

/-- World oracle for the staleness scenario: the block at (5,5,5) was changed
to Dirt after a tick for Stone was scheduled there. -/
def dirtGetter : Getter := fun p =>
  if p = ((5 : Int), (5 : Int), (5 : Int)) then
    some (.Dirt, BlockProperties.new .Dirt) else none

/-- Witness for C4 at the spec's scenario: the event recorded kind Stone at
(5,5,5) but the getter now reports Dirt, so the handler trace is empty. -/
theorem claim_C4_stale_events_discarded_witness :
    tickHandlerTrace copperManager dirtGetter (((5 : Int), 5, 5), .Stone, .Scheduled) = [] :=
  (claim_C4_stale_events_discarded (BlockTickExecutor.new 3 copperManager) 0 dirtGetter).2
    (((5 : Int), 5, 5), .Stone, .Scheduled) (by decide)

theorem processTicksLoop_speed (now : Nat) :
    ∀ (fuel : Nat) (s : BlockTickScheduler),
      (processTicksLoop now fuel s).2.random_tick_speed = s.random_tick_speed := by
  intro fuel
  induction fuel with
  | zero => intro s; rfl
  | succ n ih =>
    intro s
    unfold processTicksLoop
    cases hp : heapPop s.pending_ticks with
    | none => rfl
    | some p =>
      by_cases hd : now < p.1.scheduled_time
      · simp [hd]
      · simp [hd, ih]

/-- C9: `clear` empties the pending-tick heap and the position map, so a
following `process_ticks` yields nothing and changes nothing, while the
random tick speed survives `clear`, `schedule_tick` and `process_ticks`
unchanged; only `set_random_tick_speed` writes it. -/
theorem claim_C9_clear_frame (s : BlockTickScheduler) (now : Nat) (speed : Nat)
    (pos : Pos) (kind : BlockKind) (delay : Nat) (tt : TickType) (prio : Int) :
    s.clear.pending_ticks = [] ∧
      s.clear.position_to_tick = [] ∧
      s.clear.process_ticks now = ([], s.clear) ∧
      s.clear.random_tick_speed = s.random_tick_speed ∧
      (s.set_random_tick_speed speed).random_tick_speed = speed ∧
      (s.schedule_tick now pos kind delay tt prio).random_tick_speed =
        s.random_tick_speed ∧
      (s.process_ticks now).2.random_tick_speed = s.random_tick_speed :=
  ⟨rfl, rfl, rfl, rfl, rfl, rfl, processTicksLoop_speed now _ s⟩

/-- Witness for C6 at budget 3: the empty candidate list yields zero handler
calls, a singleton candidate list yields exactly three. -/
theorem claim_C6_sampler_budget_witness :
    (BlockTickScheduler.new 3).process_random_ticks (0, 0) [] (fun _ => 0) = [] ∧
      ((BlockTickScheduler.new 3).process_random_ticks (0, 0)
          [(.Stone, ((0 : Int), 0, 0), BlockProperties.new .Stone)] (fun _ => 0)).length = 3 :=
  ⟨(claim_C6_sampler_budget (BlockTickScheduler.new 3) (0, 0) [] (fun _ => 0)).1 rfl,
   ((claim_C6_sampler_budget (BlockTickScheduler.new 3) (0, 0)
        [(.Stone, ((0 : Int), 0, 0), BlockProperties.new .Stone)] (fun _ => 0)).2
      (List.cons_ne_nil _ _)).1⟩

/-- The pending updates that are due at `current_tick` and still validate
against the world: the block at the position is present with the recorded
kind. -/
def duePromotions (current_tick : Nat) (block_getter : Getter)
    (pending : List BlockUpdate) : List BlockUpdate :=
  pending.filter (fun u => decide (u.delay ≤ current_tick) &&
    match block_getter u.position with
    | some bp => decide (bp.1 = u.kind)
    | none => false)

theorem process_pending_updates_spec (current_tick now : Nat) (block_getter : Getter) :
    ∀ (pending : List BlockUpdate) (ex : BlockTickExecutor),
      process_pending_updates current_tick now block_getter ex pending =
        ((duePromotions current_tick block_getter pending).foldl
            (fun e u => e.schedule_tick now u.position u.kind 0 u.priority) ex,
          pending.filter (fun u => !decide (u.delay ≤ current_tick))) := by
  intro pending
  induction pending with
  | nil => intro ex; rfl
  | cons u rest ih =>
    intro ex
    by_cases hdue : u.delay ≤ current_tick
    · cases hg : block_getter u.position with
      | none =>
        simp [process_pending_updates, duePromotions, List.filter_cons, hdue, hg, ih,
          duePromotions]
      | some bp =>
        by_cases hkind : bp.1 = u.kind
        · simp [process_pending_updates, duePromotions, List.filter_cons, hdue, hg,
            hkind, ih, duePromotions]
        · simp [process_pending_updates, duePromotions, List.filter_cons, hdue, hg,
            hkind, ih, duePromotions]
    · simp [process_pending_updates, duePromotions, List.filter_cons, hdue, ih,
        duePromotions]

/-- C8: `process_pending_updates` drains exactly the pending updates whose
`delay` — an absolute tick count — is ≤ the running counter, leaving the
not-yet-due ones in order; each drained update whose block is still present
with the recorded kind is promoted through `schedule_tick` with zero
additional delay, while a missing or mismatched block drops the update with
no other effect; `update` performs this drain against its freshly
incremented counter. -/
theorem claim_C8_pending_update_promotion (current_tick now : Nat)
    (block_getter : Getter) (ex : BlockTickExecutor) (pending : List BlockUpdate)
    (w : BlockWorldIntegration) (chunks : List (ChunkPosition × Chunk))
    (rng : ChunkPosition → Nat → Nat) :
    process_pending_updates current_tick now block_getter ex pending =
        ((duePromotions current_tick block_getter pending).foldl
            (fun e u => e.schedule_tick now u.position u.kind 0 u.priority) ex,
          pending.filter (fun u => !decide (u.delay ≤ current_tick))) ∧
      (w.update block_getter chunks now rng).2.pending_updates =
        w.pending_updates.filter (fun u => !decide (u.delay ≤ w.current_tick + 1)) := by
  refine ⟨process_pending_updates_spec current_tick now block_getter pending ex, ?_⟩
  show (process_pending_updates (w.current_tick + 1) now block_getter _ w.pending_updates).2 = _
  rw [process_pending_updates_spec]

/-- The pending updates `propagate_block_update` adds for `pos`: one per
neighbor candidate that passes validity and at which the getter reports a
block, carrying the neighbor's current kind with delay 1 and priority 0. -/
def neighborUpdates (posValid : Pos → Bool) (block_getter : Getter) (pos : Pos) :
    List BlockUpdate :=
  ((neighbor_candidates pos).filterMap (ValidBlockPosition.new posValid)).filterMap
    (fun n => (block_getter n).map (fun bp => ⟨n, bp.1, 1, 0⟩))

theorem propagate_foldl_pending (block_getter : Getter) :
    ∀ (ns : List Pos) (w : BlockWorldIntegration),
      (ns.foldl (fun acc neighbor_pos =>
          match block_getter neighbor_pos with
          | some (kind, _) => acc.schedule_block_update neighbor_pos kind 1 0
          | none => acc) w).pending_updates =
        w.pending_updates ++ ns.filterMap
          (fun n => (block_getter n).map (fun bp => (⟨n, bp.1, 1, 0⟩ : BlockUpdate))) := by
  intro ns
  induction ns with
  | nil => intro w; simp
  | cons n rest ih =>
    intro w
    cases hg : block_getter n with
    | none => simp [List.foldl_cons, List.filterMap_cons, hg, ih]
    | some bp =>
      cases bp with
      | mk kind props =>
        rw [List.foldl_cons]
        simp only [hg]
        rw [ih]
        simp [BlockWorldIntegration.schedule_block_update, List.filterMap_cons, hg]

theorem propagate_pending (w : BlockWorldIntegration) (posValid : Pos → Bool)
    (pos : Pos) (block_getter : Getter) :
    (w.propagate_block_update posValid pos block_getter).pending_updates =
      w.pending_updates ++ neighborUpdates posValid block_getter pos :=
  propagate_foldl_pending block_getter _ w

theorem mem_neighborUpdates (posValid : Pos → Bool) (block_getter : Getter) (pos : Pos) :
    ∀ u ∈ neighborUpdates posValid block_getter pos,
      u.delay = 1 ∧ u.priority = 0 ∧ u.position ∈ neighbor_candidates pos := by
  intro u hu
  unfold neighborUpdates at hu
  rw [List.mem_filterMap] at hu
  obtain ⟨n, hn, hmap⟩ := hu
  cases hg : block_getter n with
  | none => rw [hg] at hmap; cases hmap
  | some bp =>
    rw [hg] at hmap
    simp at hmap
    subst hmap
    refine ⟨rfl, rfl, ?_⟩
    rw [List.mem_filterMap] at hn
    obtain ⟨m, hm, hv⟩ := hn
    unfold ValidBlockPosition.new at hv
    by_cases hval : posValid m = true
    · rw [if_pos hval] at hv
      cases hv
      exact hm
    · rw [if_neg hval] at hv
      cases hv

theorem filterMap_valid_id (posValid : Pos → Bool) :
    ∀ ns : List Pos, (∀ n ∈ ns, posValid n = true) →
      ns.filterMap (ValidBlockPosition.new posValid) = ns := by
  intro ns
  induction ns with
  | nil => intro _; rfl
  | cons n rest ih =>
    intro h
    have hn := h n (by simp)
    simp [List.filterMap_cons, ValidBlockPosition.new, hn,
      ih (fun m hm => h m (List.mem_cons_of_mem n hm))]

theorem filterMap_getter_length (block_getter : Getter) :
    ∀ ns : List Pos, (∀ n ∈ ns, (block_getter n).isSome = true) →
      (ns.filterMap
        (fun n => (block_getter n).map (fun bp => (⟨n, bp.1, 1, 0⟩ : BlockUpdate)))).length =
        ns.length := by
  intro ns
  induction ns with
  | nil => intro _; rfl
  | cons n rest ih =>
    intro h
    have hn := h n (by simp)
    cases hg : block_getter n with
    | none => rw [hg] at hn; cases hn
    | some bp =>
      simp [List.filterMap_cons, hg,
        ih (fun m hm => h m (List.mem_cons_of_mem n hm))]

/-- C7: `on_block_changed` at `pos` appends to the pending updates exactly one
entry per axis-aligned neighbor of `pos` that constructs a valid position and
at which `block_getter` reports a block — each entry with delay 1, priority 0
and a position among the six neighbor candidates (so none for any other
position) — and exactly six entries when all six neighbors are valid and
occupied. -/
theorem claim_C7_propagation_fan_out (w : BlockWorldIntegration)
    (posValid : Pos → Bool) (pos : Pos) (new_block : BlockKind)
    (block_getter : Getter) (now : Nat) :
    (w.on_block_changed posValid pos new_block block_getter now).pending_updates =
        w.pending_updates ++ neighborUpdates posValid block_getter pos ∧
      (∀ u ∈ neighborUpdates posValid block_getter pos,
        u.delay = 1 ∧ u.priority = 0 ∧ u.position ∈ neighbor_candidates pos) ∧
      ((∀ n ∈ neighbor_candidates pos, posValid n = true ∧ (block_getter n).isSome = true) →
        (neighborUpdates posValid block_getter pos).length = 6) := by
  refine ⟨?_, mem_neighborUpdates posValid block_getter pos, ?_⟩
  · by_cases hk : new_block.receives_random_ticks = true
    · simp [BlockWorldIntegration.on_block_changed, hk, propagate_pending]
    · simp [BlockWorldIntegration.on_block_changed, hk, propagate_pending]
  · intro hall
    unfold neighborUpdates
    rw [filterMap_valid_id posValid _ (fun n hn => (hall n hn).1),
      filterMap_getter_length block_getter _ (fun n hn => (hall n hn).2)]
    rfl

/-- World with nothing registered or pending, used as a concrete base state. -/
def w0 : BlockWorldIntegration :=
  BlockWorldIntegration.new (BlockTickExecutor.new 3 BlockTransitionManager.new)

/-- Validity oracle accepting every position. -/
def allValid : Pos → Bool := fun _ => true

/-- World read oracle reporting Stone everywhere. -/
def stoneGetter : Getter := fun _ => some (.Stone, BlockProperties.new .Stone)

/-- Witness for C7: with all six neighbors of the origin valid and occupied by
Stone, exactly six pending updates are appended. -/
theorem claim_C7_propagation_fan_out_witness :
    (neighborUpdates allValid stoneGetter ((0 : Int), 0, 0)).length = 6 ∧
      (w0.on_block_changed allValid ((0 : Int), 0, 0) .Stone stoneGetter 0).pending_updates =
        w0.pending_updates ++ neighborUpdates allValid stoneGetter ((0 : Int), 0, 0) := by
  have h := claim_C7_propagation_fan_out w0 allValid ((0 : Int), 0, 0) .Stone stoneGetter 0
  exact ⟨h.2.2 (fun n _ => ⟨rfl, rfl⟩), h.1⟩

/-- The chunks whose blocks get a random-tick sampling pass: the registered
chunks that are present in the supplied chunk table. -/
def sampledChunks (w : BlockWorldIntegration) (chunks : List (ChunkPosition × Chunk)) :
    List ChunkPosition :=
  (w.registered_chunks.map Prod.fst).filter (fun c => (chunkLookup chunks c).isSome)

theorem process_random_ticks_sampled (w : BlockWorldIntegration)
    (block_getter : Getter) (chunks : List (ChunkPosition × Chunk))
    (rng : ChunkPosition → Nat → Nat) :
    w.process_random_ticks block_getter chunks rng =
      (sampledChunks w chunks).flatMap (fun c =>
        match chunkLookup chunks c with
        | some chunk =>
          w.tick_executor.process_random_ticks c
            (ticking_blocks block_getter c chunk) block_getter (rng c)
        | none => []) := by
  unfold BlockWorldIntegration.process_random_ticks sampledChunks
  generalize w.registered_chunks = l
  induction l with
  | nil => rfl
  | cons rc rl ih =>
    cases hl : chunkLookup chunks rc.1 with
    | none => simp [List.flatMap_cons, List.filter_cons, hl, ih]
    | some chunk => simp [List.flatMap_cons, List.filter_cons, hl, ih]

theorem find?_key_none {α : Type} (l : List (ChunkPosition × α)) (c : ChunkPosition)
    (h : l.find? (fun e => decide (e.1 = c)) = none) :
    l.filter (fun e => !decide (e.1 = c)) = l := by
  apply List.filter_eq_self.mpr
  intro e he
  have := List.find?_eq_none.mp h e he
  simpa using this

/-- C10 (amended): `register_chunk` is idempotent; `unregister_chunk` on an
unregistered chunk is a no-op; `register_chunk` followed by
`unregister_chunk` leaves the chunk unregistered, restoring the original
membership exactly when the chunk was not registered before; and during
`update` (whose random tick interval is 1, the only value the code ever
constructs) a chunk receives the random-tick sampling pass iff it is
currently registered and present in the supplied chunk table. -/
theorem claim_C10_region_registration (w : BlockWorldIntegration) (c : ChunkPosition)
    (block_getter : Getter) (chunks : List (ChunkPosition × Chunk)) (now : Nat)
    (rng : ChunkPosition → Nat → Nat) :
    (w.register_chunk c).register_chunk c = w.register_chunk c ∧
      (w.isRegistered c = false → w.unregister_chunk c = w) ∧
      (w.isRegistered c = false → (w.register_chunk c).unregister_chunk c = w) ∧
      (∀ d, d ∈ sampledChunks w chunks ↔
        w.isRegistered d = true ∧ (chunkLookup chunks d).isSome = true) ∧
      (w.random_tick_interval = 1 →
        (w.update block_getter chunks now rng).1 =
          (w.tick_executor.process_ticks now block_getter).1 ++
            (sampledChunks w chunks).flatMap (fun d =>
              match chunkLookup chunks d with
              | some chunk =>
                BlockTickExecutor.process_random_ticks
                  (w.tick_executor.process_ticks now block_getter).2 d
                  (ticking_blocks block_getter d chunk) block_getter (rng d)
              | none => [])) := by
  refine ⟨?_, ?_, ?_, ?_, ?_⟩
  · unfold BlockWorldIntegration.register_chunk
    simp [List.filter_cons, List.filter_filter]
  · intro h
    unfold BlockWorldIntegration.isRegistered at h
    have hnone : w.registered_chunks.find? (fun e => decide (e.1 = c)) = none := by
      cases hf : w.registered_chunks.find? (fun e => decide (e.1 = c)) with
      | none => rfl
      | some x => rw [hf] at h; cases h
    unfold BlockWorldIntegration.unregister_chunk
    rw [find?_key_none _ _ hnone]
  · intro h
    unfold BlockWorldIntegration.isRegistered at h
    have hnone : w.registered_chunks.find? (fun e => decide (e.1 = c)) = none := by
      cases hf : w.registered_chunks.find? (fun e => decide (e.1 = c)) with
      | none => rfl
      | some x => rw [hf] at h; cases h
    unfold BlockWorldIntegration.unregister_chunk BlockWorldIntegration.register_chunk
    simp [List.filter_cons, List.filter_filter, find?_key_none _ _ hnone]
  · intro d
    unfold sampledChunks BlockWorldIntegration.isRegistered
    rw [List.mem_filter, List.mem_map]
    constructor
    · rintro ⟨⟨e, he, rfl⟩, hl⟩
      refine ⟨?_, hl⟩
      rw [List.find?_isSome]
      exact ⟨e, he, by simp⟩
    · rintro ⟨hreg, hl⟩
      rw [List.find?_isSome] at hreg
      obtain ⟨e, he, hp⟩ := hreg
      simp only [decide_eq_true_eq] at hp
      exact ⟨⟨e, he, hp⟩, hl⟩
  · intro hint
    show (_ ++ _ : List TickEffect) = _
    rw [process_random_ticks_sampled]
    simp only [hint, Nat.mod_one, if_pos rfl]
    rfl

/-- World with chunk (0,0) already registered. -/
def regWorld : BlockWorldIntegration := w0.register_chunk (0, 0)

/-- C10 counterexample: on a state where chunk (0,0) is already registered,
`register_chunk` followed by `unregister_chunk` of that chunk does NOT
restore the original membership — the chunk was registered before and is
unregistered after. -/
theorem claim_C10_register_unregister_counterexample :
    regWorld.isRegistered (0, 0) = true ∧
      ((regWorld.register_chunk (0, 0)).unregister_chunk (0, 0)).isRegistered (0, 0) = false := by
  decide

/-- World read oracle reporting no block anywhere. -/
def emptyGetter : Getter := fun _ => none

/-- Fixed random oracle for the C10 witness. -/
def zeroRng : ChunkPosition → Nat → Nat := fun _ _ => 0

/-- Witness for C10 on the fresh world (nothing registered, interval 1):
register-then-unregister restores it, and `update` over an empty chunk table
produces no effects. -/
theorem claim_C10_region_registration_witness :
    (w0.register_chunk (3, 4)).unregister_chunk (3, 4) = w0 ∧
      (w0.update emptyGetter [] 7 zeroRng).1 = [] := by
  have h := claim_C10_region_registration w0 (3, 4) emptyGetter [] 7 zeroRng
  refine ⟨h.2.2.1 rfl, ?_⟩
  rw [h.2.2.2.2 rfl]
  rfl

end Feather
